import Mathlib

/-
Verification of the twitch-command-parser repository: a shallow embedding of
`src/settings.ts` (the settings validation) and of the tokenizer state machine
`CommandParser.parse`, together with theorems settling the specification's
claims about them.

Modelling notes, mirroring the TypeScript source:
  * the TS field `prefix` is called `pfx` here (`prefix` is a Lean keyword);
    all other source names are kept;
  * a JS string index access `s[i]` yields `undefined` out of range and an
    equality test with a character is then false: embedded as `s.data.get? i`
    compared with `some c`;
  * the JS `Set` keeps insertion order and drops repeated `add`s: embedded as a
    `List String` with `addOption`; the JS `Map.set` overwrites the value of an
    existing key in place and appends new keys: embedded as an association list
    with `setParam`;
  * the regexes of `settings.ts` are embedded by their matching behaviour on
    the whole string, the `RegExp.replace` calls of the unescape step by a
    left-to-right non-overlapping replace-all on character lists;
  * thrown `ParseError(index, message)` / `ValidationError(message)` become an
    `Except PError` result.
-/

namespace TCP

/-- The two check policies of `SettingsChecks` in `src/settings.ts`. -/
inductive SettingsChecks where
  | minimum
  | twitch
deriving DecidableEq, Repr

/-- `ParserSettings` of `src/settings.ts`; `pfx` embeds the TS field of the
reserved name, `checks` and `forceParse` are the optional fields. -/
structure ParserSettings where
  pfx : String
  optionPrefix : String
  checks : Option SettingsChecks := none
  forceParse : Option Bool := none
deriving DecidableEq, Repr

/-- Whether the regex of `anyOptionPrefixValidation` and
`twitchOptionPrefixValidation` matches somewhere in `s`.  The regex groups as
(starts with a double quote) or (an apostrophe anywhere) or (empty string) or
(a space anywhere), exactly as the source's pattern parses. -/
def anyOptionPrefixValidation (s : String) : Bool :=
  (match s.data with
    | '"' :: _ => true
    | _ => false)
  || s.data.contains '\''
  || s.data.isEmpty
  || s.data.contains ' '

/-- Two consecutive spaces somewhere in the character list. -/
def twoSpaces : List Char → Bool
  | ' ' :: ' ' :: _ => true
  | _ :: rest => twoSpaces rest
  | [] => false

/-- Whether the regex of `twitchPrefixValidation` matches: a leading space, or
two consecutive spaces anywhere. -/
def twitchPrefixValidation (s : String) : Bool :=
  (match s.data with
    | ' ' :: _ => true
    | _ => false)
  || twoSpaces s.data

/-- `validSettings` of `src/settings.ts`. -/
def validSettings (s : ParserSettings) : Bool :=
  match s.checks.getD SettingsChecks.minimum with
  | SettingsChecks.twitch =>
      if twitchPrefixValidation s.pfx then false
      else if anyOptionPrefixValidation s.optionPrefix then false
      else true
  | SettingsChecks.minimum =>
      if anyOptionPrefixValidation s.optionPrefix then false
      else true

/-- The parsed command record (`Command` of the source); `options` embeds the
JS `Set` in insertion order, `parameters` the JS `Map` in insertion order. -/
structure Command where
  parserSettings : ParserSettings
  name : String
  arguments : List String
  options : List String
  parameters : List (String × String)
  source : String
  passedChecks : Bool
deriving DecidableEq, Repr

/-- The two thrown error classes of `src/error.ts`, with the raw constructor
data (index and message). -/
inductive PError where
  | parseError (index : Nat) (message : String)
  | validationError (message : String)
deriving DecidableEq, Repr

/-- The scanner states (`enum State` of the source). -/
inductive State where
  | Prefix
  | Name
  | Default
  | OptionPrefix
  | Option
  | ParamConnector
  | Param
  | LongParam
  | EscapeLongParam
  | Argument
  | LongArgument
  | EscapeLongArgument
deriving DecidableEq, Repr

/-- The mutable scan variables of `parse` together with the command fields it
fills in while scanning. -/
structure ScanSt where
  name : String
  arguments : List String
  options : List String
  parameters : List (String × String)
  bufferStartIndex : Nat
  keyBuffer : String
  longType : Char
  state : State
deriving DecidableEq, Repr

/-- The scan variables as initialised at the top of `parse`. -/
def initScan : ScanSt :=
  { name := "", arguments := [], options := [], parameters := [],
    bufferStartIndex := 0, keyBuffer := "", longType := '"',
    state := State.Prefix }

/-- `source.substring(a, b)` on a character-list view of the string. -/
def listSub (src : List Char) (a b : Nat) : String :=
  String.mk ((src.drop a).take (b - a))

/-- `Set.add`: append unless already present (JS sets keep insertion order). -/
def addOption (opts : List String) (o : String) : List String :=
  if opts.contains o then opts else opts ++ [o]

/-- `Map.set`: overwrite the value of an existing key in place, else append. -/
def setParam : List (String × String) → String → String → List (String × String)
  | [], k, v => [(k, v)]
  | (k', v') :: rest, k, v =>
      if k' = k then (k', v) :: rest
      else (k', v') :: setParam rest k v

/-- `Map.get`: first (unique) entry of the key. -/
def lookupParam : List (String × String) → String → Option String
  | [], _ => none
  | (k', v) :: rest, k => if k' = k then some v else lookupParam rest k

/-- Left-to-right, non-overlapping replace-all (the semantics of a JS
`String.replace` with a global regex of a fixed pattern `p :: ps`), with fuel
to keep the recursion structural; `replaceAll` supplies enough fuel. -/
def replaceAllFuel (p : Char) (ps rep : List Char) : Nat → List Char → List Char
  | 0, s => s
  | _ + 1, [] => []
  | fuel + 1, c :: rest =>
      if c = p ∧ List.isPrefixOf ps rest then
        rep ++ replaceAllFuel p ps rep fuel (rest.drop ps.length)
      else
        c :: replaceAllFuel p ps rep fuel rest

/-- Replace every occurrence of the pattern `p :: ps` by `rep`, leftmost first,
never rescanning a replacement. -/
def replaceAll (p : Char) (ps rep : List Char) (s : List Char) : List Char :=
  replaceAllFuel p ps rep s.length s

/-- The unescaping applied when a long token closes: first the regex
`re_doubletick` or `re_tick` (backslash followed by the active quote `q`)
replaced by the bare quote, then `re_backslash` (two backslashes) replaced by
one backslash, in that order. -/
def unescape (q : Char) (s : String) : String :=
  String.mk (replaceAll '\\' ['\\'] ['\\'] (replaceAll '\\' [q] [q] s.data))

/-- One iteration of the `for` loop of `parse`: the `switch` on the state for
the character `c` standing at index `i` of the scanned text `src`. -/
def step (S : ParserSettings) (src : List Char) (i : Nat) (c : Char)
    (st : ScanSt) : Except PError ScanSt :=
  match st.state with
  | State.Prefix =>
      if S.pfx.data.get? (i - st.bufferStartIndex) = some c then Except.ok st
      else if (i - st.bufferStartIndex) < S.pfx.length then
        Except.error (PError.parseError i
          ("expected '" ++ String.mk [S.pfx.data.getD (i - st.bufferStartIndex) ' '] ++ "'"))
      else if c = ' ' then
        Except.error (PError.parseError i "can't have space after prefix")
      else
        Except.ok { st with bufferStartIndex := i, state := State.Name }
  | State.Name =>
      if c = ' ' then
        Except.ok { st with name := listSub src st.bufferStartIndex i,
                            bufferStartIndex := i, state := State.Default }
      else Except.ok st
  | State.Default =>
      if c = ' ' then Except.ok st
      else if S.optionPrefix.data.get? 0 = some c then
        Except.ok { st with bufferStartIndex := i, state := State.OptionPrefix }
      else if c = '"' ∨ c = '\'' then
        Except.ok { st with longType := c, bufferStartIndex := i + 1,
                            state := State.LongArgument }
      else
        Except.ok { st with bufferStartIndex := i, state := State.Argument }
  | State.OptionPrefix =>
      if S.optionPrefix.data.get? (i - st.bufferStartIndex) = some c then Except.ok st
      else if (i - st.bufferStartIndex) < S.optionPrefix.length then
        Except.ok { st with state := State.Argument }
      else if c = ' ' then
        Except.error (PError.parseError i "expected option, options can't be empty")
      else
        Except.ok { st with bufferStartIndex := i, state := State.Option }
  | State.Option =>
      if c = ' ' then
        Except.ok { st with
          options := addOption st.options (listSub src st.bufferStartIndex i),
          bufferStartIndex := i, state := State.Default }
      else if c = ':' then
        Except.ok { st with keyBuffer := listSub src st.bufferStartIndex i,
                            bufferStartIndex := i, state := State.ParamConnector }
      else Except.ok st
  | State.ParamConnector =>
      if c = ' ' then
        Except.error (PError.parseError i
          "parameter value can't be empty (use \"\" instead)")
      else if c = '"' ∨ c = '\'' then
        Except.ok { st with longType := c, bufferStartIndex := i + 1,
                            state := State.LongParam }
      else
        Except.ok { st with bufferStartIndex := i, state := State.Param }
  | State.Param =>
      if c = ' ' then
        Except.ok { st with
          parameters := setParam st.parameters st.keyBuffer
            (listSub src st.bufferStartIndex i),
          bufferStartIndex := i, state := State.Default }
      else Except.ok st
  | State.LongParam =>
      if c = st.longType then
        Except.ok { st with
          parameters := setParam st.parameters st.keyBuffer
            (unescape st.longType (listSub src st.bufferStartIndex i)),
          bufferStartIndex := i, state := State.Default }
      else if c = '\\' then
        Except.ok { st with state := State.EscapeLongParam }
      else Except.ok st
  | State.EscapeLongParam =>
      if c = '\\' ∨ c = st.longType then
        Except.ok { st with state := State.LongParam }
      else
        Except.error (PError.parseError i
          ("couldn't escape with character '" ++ String.mk [c] ++ "'"))
  | State.Argument =>
      if c = ' ' then
        Except.ok { st with
          arguments := st.arguments ++ [listSub src st.bufferStartIndex i],
          bufferStartIndex := i, state := State.Default }
      else Except.ok st
  | State.LongArgument =>
      if c = st.longType then
        Except.ok { st with
          arguments := st.arguments ++
            [unescape st.longType (listSub src st.bufferStartIndex i)],
          bufferStartIndex := i, state := State.Default }
      else if c = '\\' then
        Except.ok { st with state := State.EscapeLongArgument }
      else Except.ok st
  | State.EscapeLongArgument =>
      if c = '\\' ∨ c = st.longType then
        Except.ok { st with state := State.LongArgument }
      else
        Except.error (PError.parseError i
          ("couldn't escape with character '" ++ String.mk [c] ++ "'"))

/-- The scan loop of `parse`: process the remaining characters, threading the
index of the first of them. -/
def scanLoop (S : ParserSettings) (src : List Char) :
    Nat → List Char → ScanSt → Except PError ScanSt
  | _, [], st => Except.ok st
  | i, c :: rest, st =>
      match step S src i c st with
      | Except.error e => Except.error e
      | Except.ok st' => scanLoop S src (i + 1) rest st'

/-- The command record built by `parse` out of the final scan variables (the
source mutates `command` in place while scanning; the result is the same). -/
def mkCommand (S : ParserSettings) (source : String) (v : Bool)
    (st : ScanSt) : Command :=
  { parserSettings := S, name := st.name, arguments := st.arguments,
    options := st.options, parameters := st.parameters, source := source,
    passedChecks := v }

/-- `CommandParser.parse`: the validation gate, then the scan of the source
with the sentinel space appended. -/
def parse (S : ParserSettings) (source : String) : Except PError Command :=
  let settingsValidation := validSettings S
  if !settingsValidation && !(S.forceParse.getD false) then
    Except.error (PError.validationError "error: validation failed")
  else
    let src := source.data ++ [' ']
    match scanLoop S src 0 src initScan with
    | Except.error e => Except.error e
    | Except.ok st => Except.ok (mkCommand S source settingsValidation st)

/-- The scan state after processing exactly the characters of the original
source (the sentinel space not yet consumed). -/
def scanOriginal (S : ParserSettings) (source : String) : Except PError ScanSt :=
  scanLoop S (source.data ++ [' ']) 0 source.data initScan


/-- An index with a defined character stands before the end of the list. -/
theorem get?_some_lt {l : List Char} {i : Nat} {a : Char}
    (h : l.get? i = some a) : i < l.length := by
  by_contra h'
  rw [List.get?_eq_none.mpr (Nat.le_of_not_lt h')] at h
  cases h

/-- A substring with at least one character inside the list is not empty. -/
theorem listSub_ne_empty {src : List Char} {a b : Nat}
    (hab : a < b) (ha : a < src.length) : listSub src a b ≠ "" := by
  intro h
  have hdata : ((src.drop a).take (b - a)) = [] := congrArg String.data h
  rcases List.take_eq_nil_iff.mp hdata with h1 | h1
  · omega
  · rw [List.drop_eq_nil_iff] at h1
    omega

/-- `addOption` keeps the option set free of duplicates. -/
theorem addOption_nodup {opts : List String} {o : String}
    (h : opts.Nodup) : (addOption opts o).Nodup := by
  unfold addOption
  split
  · exact h
  · rename_i hnc
    have ho : o ∉ opts := fun hmem => hnc (List.elem_eq_true_of_mem hmem)
    refine List.Nodup.append h (List.nodup_singleton o) ?_
    intro x hx hxo
    rw [List.mem_singleton] at hxo
    subst hxo
    exact ho hx

/-- Any key of the map after a `setParam` is an old key or the key set. -/
theorem setParam_keys_sub {ps : List (String × String)} {k v : String} :
    ∀ x, x ∈ (setParam ps k v).map Prod.fst → x ∈ ps.map Prod.fst ∨ x = k := by
  induction ps with
  | nil =>
      intro x hx
      simp only [setParam, List.map_cons, List.map_nil] at hx
      rcases List.mem_cons.mp hx with h | h
      · exact Or.inr h
      · exact absurd h (List.not_mem_nil x)
  | cons hd tl ih =>
      intro x hx
      obtain ⟨k', v'⟩ := hd
      by_cases hk : k' = k
      · simp only [setParam, if_pos hk, List.map_cons] at hx
        rw [List.map_cons]
        exact Or.inl hx
      · simp only [setParam, if_neg hk, List.map_cons] at hx
        rw [List.map_cons]
        rcases List.mem_cons.mp hx with h | h
        · exact Or.inl (by rw [h]; exact List.mem_cons_self k' _)
        · rcases ih x h with h' | h'
          · exact Or.inl (List.mem_cons_of_mem k' h')
          · exact Or.inr h'

/-- `setParam` keeps the parameter keys free of duplicates. -/
theorem setParam_keys_nodup {ps : List (String × String)} {k v : String}
    (h : (ps.map Prod.fst).Nodup) : ((setParam ps k v).map Prod.fst).Nodup := by
  induction ps with
  | nil => simp [setParam]
  | cons hd tl ih =>
      obtain ⟨k', v'⟩ := hd
      rw [List.map_cons, List.nodup_cons] at h
      obtain ⟨hk', htl⟩ := h
      by_cases hk : k' = k
      · simp only [setParam, if_pos hk, List.map_cons]
        exact List.nodup_cons.mpr ⟨hk', htl⟩
      · simp only [setParam, if_neg hk, List.map_cons]
        refine List.nodup_cons.mpr ⟨?_, ih htl⟩
        intro hmem
        rcases setParam_keys_sub k' hmem with hmem' | hmem'
        · exact hk' hmem'
        · exact hk hmem'

/-- The value of the key just set: the last `Map.set` of a key wins. -/
theorem lookupParam_setParam (ps : List (String × String)) (k v : String) :
    lookupParam (setParam ps k v) k = some v := by
  induction ps with
  | nil => simp [setParam, lookupParam]
  | cons hd tl ih =>
      obtain ⟨k', v'⟩ := hd
      by_cases hk : k' = k
      · simp only [setParam, if_pos hk]
        simp [lookupParam, hk]
      · simp only [setParam, if_neg hk]
        simp only [lookupParam, if_neg hk]
        exact ih

/-- `a` is an initial segment of `b`. -/
def initSegOf (a b : List Char) : Prop := ∃ t, a ++ t = b

/-- Characterwise agreement on all of `a` makes `a` an initial segment. -/
theorem initSegOf_of_pointwise {a b : List Char}
    (h : ∀ j, j < a.length → a.get? j = b.get? j) : initSegOf a b := by
  refine ⟨b.drop a.length, ?_⟩
  apply List.ext
  intro n
  by_cases hn : n < a.length
  · rw [List.get?_append hn, h n hn]
  · rw [List.get?_append_right (Nat.le_of_not_lt hn), List.get?_drop]
    congr 1
    omega

section StepLemmas

variable {S : ParserSettings} {src : List Char} {i : Nat} {c : Char} {st : ScanSt}

/-- Prefix state, next prefix character matched: scan on unchanged. -/
theorem step_pfx_match (h : st.state = State.Prefix)
    (h1 : S.pfx.data.get? (i - st.bufferStartIndex) = some c) :
    step S src i c st = Except.ok st := by
  unfold step
  rw [h]
  dsimp only
  rw [if_pos h1]

/-- Prefix state, mismatch before the prefix was fully consumed: the
"expected" ParseError at the current index. -/
theorem step_pfx_mismatch (h : st.state = State.Prefix)
    (h1 : S.pfx.data.get? (i - st.bufferStartIndex) ≠ some c)
    (h2 : i - st.bufferStartIndex < S.pfx.length) :
    step S src i c st = Except.error (PError.parseError i
      ("expected '" ++ String.mk [S.pfx.data.getD (i - st.bufferStartIndex) ' '] ++ "'")) := by
  unfold step
  rw [h]
  dsimp only
  rw [if_neg h1, if_pos h2]

/-- Prefix state, prefix fully consumed, a space: the "can't have space after
prefix" ParseError. -/
theorem step_pfx_space (h : st.state = State.Prefix)
    (h2 : S.pfx.length ≤ i - st.bufferStartIndex) (hc : c = ' ') :
    step S src i c st =
      Except.error (PError.parseError i "can't have space after prefix") := by
  have h0 : S.pfx.data.get? (i - st.bufferStartIndex) = none :=
    List.get?_eq_none.mpr h2
  have h1 : ¬(S.pfx.data.get? (i - st.bufferStartIndex) = some c) := by
    rw [h0]
    intro hx
    cases hx
  unfold step
  rw [h]
  dsimp only
  rw [if_neg h1, if_neg (Nat.not_lt.mpr h2), if_pos hc]

/-- Prefix state, prefix fully consumed, not a space: the Name token starts. -/
theorem step_pfx_to_name (h : st.state = State.Prefix)
    (h2 : S.pfx.length ≤ i - st.bufferStartIndex) (hc : c ≠ ' ') :
    step S src i c st =
      Except.ok { st with bufferStartIndex := i, state := State.Name } := by
  have h0 : S.pfx.data.get? (i - st.bufferStartIndex) = none :=
    List.get?_eq_none.mpr h2
  have h1 : ¬(S.pfx.data.get? (i - st.bufferStartIndex) = some c) := by
    rw [h0]
    intro hx
    cases hx
  unfold step
  rw [h]
  dsimp only
  rw [if_neg h1, if_neg (Nat.not_lt.mpr h2), if_neg hc]

/-- Name state, a space: the name closes and scanning moves to Default. -/
theorem step_name_close (h : st.state = State.Name) (hc : c = ' ') :
    step S src i c st =
      Except.ok { st with name := listSub src st.bufferStartIndex i,
                          bufferStartIndex := i, state := State.Default } := by
  unfold step
  rw [h]
  dsimp only
  rw [if_pos hc]

/-- Name state, not a space: the character joins the name token. -/
theorem step_name_other (h : st.state = State.Name) (hc : c ≠ ' ') :
    step S src i c st = Except.ok st := by
  unfold step
  rw [h]
  dsimp only
  rw [if_neg hc]

/-- Default state, a space is skipped. -/
theorem step_default_space (h : st.state = State.Default) (hc : c = ' ') :
    step S src i c st = Except.ok st := by
  unfold step
  rw [h]
  dsimp only
  rw [if_pos hc]

/-- Option state, a space: the option is inserted into the set. -/
theorem step_option_close (h : st.state = State.Option) (hc : c = ' ') :
    step S src i c st =
      Except.ok { st with
        options := addOption st.options (listSub src st.bufferStartIndex i),
        bufferStartIndex := i, state := State.Default } := by
  unfold step
  rw [h]
  dsimp only
  rw [if_pos hc]

/-- Param state, a space: the parameter is set. -/
theorem step_param_close (h : st.state = State.Param) (hc : c = ' ') :
    step S src i c st =
      Except.ok { st with
        parameters := setParam st.parameters st.keyBuffer
          (listSub src st.bufferStartIndex i),
        bufferStartIndex := i, state := State.Default } := by
  unfold step
  rw [h]
  dsimp only
  rw [if_pos hc]

/-- Argument state, a space: the argument is pushed. -/
theorem step_argument_close (h : st.state = State.Argument) (hc : c = ' ') :
    step S src i c st =
      Except.ok { st with
        arguments := st.arguments ++ [listSub src st.bufferStartIndex i],
        bufferStartIndex := i, state := State.Default } := by
  unfold step
  rw [h]
  dsimp only
  rw [if_pos hc]

/-- LongArgument state on a character that is neither the active quote nor a
backslash: the scan just continues. -/
theorem step_longarg_other (h : st.state = State.LongArgument)
    (hq : c ≠ st.longType) (hb : c ≠ '\\') :
    step S src i c st = Except.ok st := by
  unfold step
  rw [h]
  dsimp only
  rw [if_neg hq, if_neg hb]

/-- LongParam state on a character that is neither the active quote nor a
backslash: the scan just continues. -/
theorem step_longparam_other (h : st.state = State.LongParam)
    (hq : c ≠ st.longType) (hb : c ≠ '\\') :
    step S src i c st = Except.ok st := by
  unfold step
  rw [h]
  dsimp only
  rw [if_neg hq, if_neg hb]

/-- LongArgument state at the active quote: the argument closes and the raw
slice is recorded after the two-pass unescape. -/
theorem step_longarg_close (h : st.state = State.LongArgument)
    (hq : c = st.longType) :
    step S src i c st =
      Except.ok { st with
        arguments := st.arguments ++
          [unescape st.longType (listSub src st.bufferStartIndex i)],
        bufferStartIndex := i, state := State.Default } := by
  unfold step
  rw [h]
  dsimp only
  rw [if_pos hq]

/-- LongParam state at the active quote: the parameter value is recorded after
the two-pass unescape. -/
theorem step_longparam_close (h : st.state = State.LongParam)
    (hq : c = st.longType) :
    step S src i c st =
      Except.ok { st with
        parameters := setParam st.parameters st.keyBuffer
          (unescape st.longType (listSub src st.bufferStartIndex i)),
        bufferStartIndex := i, state := State.Default } := by
  unfold step
  rw [h]
  dsimp only
  rw [if_pos hq]

/-- EscapeLongArgument on a character that can not be escaped: the "couldn't
escape" ParseError. -/
theorem step_escapelongarg_fail (h : st.state = State.EscapeLongArgument)
    (hb : c ≠ '\\') (hq : c ≠ st.longType) :
    step S src i c st = Except.error (PError.parseError i
      ("couldn't escape with character '" ++ String.mk [c] ++ "'")) := by
  unfold step
  rw [h]
  dsimp only
  rw [if_neg (not_or.mpr ⟨hb, hq⟩)]

/-- EscapeLongParam on a character that can not be escaped: the "couldn't
escape" ParseError. -/
theorem step_escapelongparam_fail (h : st.state = State.EscapeLongParam)
    (hb : c ≠ '\\') (hq : c ≠ st.longType) :
    step S src i c st = Except.error (PError.parseError i
      ("couldn't escape with character '" ++ String.mk [c] ++ "'")) := by
  unfold step
  rw [h]
  dsimp only
  rw [if_neg (not_or.mpr ⟨hb, hq⟩)]

/-- ParamConnector on a space: the "parameter value can't be empty"
ParseError. -/
theorem step_paramconnector_space (h : st.state = State.ParamConnector)
    (hc : c = ' ') :
    step S src i c st = Except.error (PError.parseError i
      "parameter value can't be empty (use \"\" instead)") := by
  unfold step
  rw [h]
  dsimp only
  rw [if_pos hc]

/-- OptionPrefix, mismatch before the option prefix was fully consumed: the
consumed characters are reinterpreted as a plain Argument (the token start is
unchanged) and the mismatching character is consumed by this transition. -/
theorem step_optionpfx_fallback (h : st.state = State.OptionPrefix)
    (h1 : S.optionPrefix.data.get? (i - st.bufferStartIndex) ≠ some c)
    (h2 : i - st.bufferStartIndex < S.optionPrefix.length) :
    step S src i c st = Except.ok { st with state := State.Argument } := by
  unfold step
  rw [h]
  dsimp only
  rw [if_neg h1, if_pos h2]

/-- OptionPrefix, fully consumed, a space: the "options can't be empty"
ParseError. -/
theorem step_optionpfx_space (h : st.state = State.OptionPrefix)
    (h2 : S.optionPrefix.length ≤ i - st.bufferStartIndex) (hc : c = ' ') :
    step S src i c st = Except.error (PError.parseError i
      "expected option, options can't be empty") := by
  have h0 : S.optionPrefix.data.get? (i - st.bufferStartIndex) = none :=
    List.get?_eq_none.mpr h2
  have h1 : ¬(S.optionPrefix.data.get? (i - st.bufferStartIndex) = some c) := by
    rw [h0]
    intro hx
    cases hx
  unfold step
  rw [h]
  dsimp only
  rw [if_neg h1, if_neg (Nat.not_lt.mpr h2), if_pos hc]

/-- OptionPrefix, next option prefix character matched: scan on unchanged. -/
theorem step_optionpfx_match (h : st.state = State.OptionPrefix)
    (h1 : S.optionPrefix.data.get? (i - st.bufferStartIndex) = some c) :
    step S src i c st = Except.ok st := by
  unfold step
  rw [h]
  dsimp only
  rw [if_pos h1]

end StepLemmas

/-- Splitting the scan loop at a concatenation of the processed text. -/
theorem scanLoop_append (S : ParserSettings) (src : List Char) (a b : List Char) :
    ∀ (i : Nat) (st : ScanSt),
    scanLoop S src i (a ++ b) st =
      match scanLoop S src i a st with
      | Except.error e => Except.error e
      | Except.ok st' => scanLoop S src (i + a.length) b st' := by
  induction a with
  | nil =>
      intro i st
      simp [scanLoop]
  | cons c a' ih =>
      intro i st
      have harith : i + (c :: a').length = i + 1 + a'.length := by
        rw [List.length_cons]
        omega
      rw [List.cons_append]
      simp only [scanLoop]
      cases hstep : step S src i c st with
      | error e => rfl
      | ok st'' =>
          dsimp only
          rw [ih (i + 1) st'', harith]

/-- The scan invariant at position `i`: the option set has no duplicates, the
parameter keys are unique, the active quote is one of the two quote
characters, and the name is empty exactly while the scan is still matching the
prefix or reading the name token (while matching the prefix, all characters
seen so far matched the configured prefix). -/
structure Inv (S : ParserSettings) (src : List Char) (i : Nat) (st : ScanSt) :
    Prop where
  optNodup : st.options.Nodup
  keyNodup : (st.parameters.map Prod.fst).Nodup
  longQuote : st.longType = '"' ∨ st.longType = '\''
  inPfx : st.state = State.Prefix →
    st.name = "" ∧ st.bufferStartIndex = 0 ∧
    ∀ j, j < i → src.get? j = S.pfx.data.get? j
  inName : st.state = State.Name →
    st.name = "" ∧ st.bufferStartIndex < i ∧ st.bufferStartIndex < src.length
  named : st.state ≠ State.Prefix → st.state ≠ State.Name → st.name ≠ ""

/-- Packaging of the invariant for states past the Name state. -/
theorem inv_of_plain {S : ParserSettings} {src : List Char} {i : Nat}
    {st : ScanSt} (h1 : st.options.Nodup)
    (h2 : (st.parameters.map Prod.fst).Nodup)
    (h3 : st.longType = '"' ∨ st.longType = '\'')
    (hP : st.state ≠ State.Prefix) (hN : st.state ≠ State.Name)
    (hname : st.name ≠ "") : Inv S src i st :=
  ⟨h1, h2, h3, fun hp => absurd hp hP, fun hn => absurd hn hN,
    fun _ _ => hname⟩

/-- One scan step preserves the invariant. -/
theorem step_inv (S : ParserSettings) (src : List Char) (i : Nat) (c : Char)
    (st st' : ScanSt) (hc : src.get? i = some c)
    (h : Inv S src i st) (hs : step S src i c st = Except.ok st') :
    Inv S src (i + 1) st' := by
  obtain ⟨h1, h2, h3, h4, h5, h6⟩ := h
  cases hstate : st.state with
  | Prefix =>
      obtain ⟨hnm, hbsi, hmat⟩ := h4 hstate
      by_cases hm : S.pfx.data.get? (i - st.bufferStartIndex) = some c
      · rw [step_pfx_match hstate hm] at hs
        injection hs with he
        subst he
        refine ⟨h1, h2, h3, ?_, ?_, ?_⟩
        · intro _
          refine ⟨hnm, hbsi, ?_⟩
          intro j hj
          rcases Nat.lt_succ_iff_lt_or_eq.mp hj with hj' | hj'
          · exact hmat j hj'
          · subst hj'
            rw [hc]
            rw [hbsi, Nat.sub_zero] at hm
            exact hm.symm
        · intro hN
          rw [hstate] at hN
          exact State.noConfusion hN
        · intro hne _
          exact absurd hstate hne
      · by_cases hlt : i - st.bufferStartIndex < S.pfx.length
        · rw [step_pfx_mismatch hstate hm hlt] at hs
          exact Except.noConfusion hs
        · by_cases hsp : c = ' '
          · rw [step_pfx_space hstate (Nat.le_of_not_lt hlt) hsp] at hs
            exact Except.noConfusion hs
          · rw [step_pfx_to_name hstate (Nat.le_of_not_lt hlt) hsp] at hs
            injection hs with he
            subst he
            refine ⟨h1, h2, h3, ?_, ?_, ?_⟩
            · intro hP
              exact State.noConfusion hP
            · intro _
              exact ⟨hnm, Nat.lt_succ_self i, get?_some_lt hc⟩
            · intro _ hne
              exact absurd rfl hne
  | Name =>
      obtain ⟨hnm, hlt, hlen⟩ := h5 hstate
      by_cases hsp : c = ' '
      · rw [step_name_close hstate hsp] at hs
        injection hs with he
        subst he
        exact inv_of_plain h1 h2 h3 (fun hx => State.noConfusion hx) (fun hx => State.noConfusion hx)
          (listSub_ne_empty hlt hlen)
      · rw [step_name_other hstate hsp] at hs
        injection hs with he
        subst he
        refine ⟨h1, h2, h3, ?_, ?_, ?_⟩
        · intro hP
          rw [hstate] at hP
          exact State.noConfusion hP
        · intro _
          exact ⟨hnm, Nat.lt_succ_of_lt hlt, hlen⟩
        · intro _ hne
          exact absurd hstate hne
  | Default =>
      have hnP : st.state ≠ State.Prefix := by rw [hstate]; decide
      have hnN : st.state ≠ State.Name := by rw [hstate]; decide
      have hname := h6 hnP hnN
      unfold step at hs
      rw [hstate] at hs
      dsimp only at hs
      by_cases hsp : c = ' '
      · rw [if_pos hsp] at hs
        injection hs with he
        subst he
        exact inv_of_plain h1 h2 h3 hnP hnN hname
      · rw [if_neg hsp] at hs
        by_cases hop : S.optionPrefix.data.get? 0 = some c
        · rw [if_pos hop] at hs
          injection hs with he
          subst he
          exact inv_of_plain h1 h2 h3 (fun hx => State.noConfusion hx) (fun hx => State.noConfusion hx) hname
        · rw [if_neg hop] at hs
          by_cases hq : c = '"' ∨ c = '\''
          · rw [if_pos hq] at hs
            injection hs with he
            subst he
            exact inv_of_plain h1 h2 hq (fun hx => State.noConfusion hx) (fun hx => State.noConfusion hx) hname
          · rw [if_neg hq] at hs
            injection hs with he
            subst he
            exact inv_of_plain h1 h2 h3 (fun hx => State.noConfusion hx) (fun hx => State.noConfusion hx) hname
  | OptionPrefix =>
      have hnP : st.state ≠ State.Prefix := by rw [hstate]; decide
      have hnN : st.state ≠ State.Name := by rw [hstate]; decide
      have hname := h6 hnP hnN
      by_cases hm : S.optionPrefix.data.get? (i - st.bufferStartIndex) = some c
      · rw [step_optionpfx_match hstate hm] at hs
        injection hs with he
        subst he
        exact inv_of_plain h1 h2 h3 hnP hnN hname
      · by_cases hlt : i - st.bufferStartIndex < S.optionPrefix.length
        · rw [step_optionpfx_fallback hstate hm hlt] at hs
          injection hs with he
          subst he
          exact inv_of_plain h1 h2 h3 (fun hx => State.noConfusion hx) (fun hx => State.noConfusion hx) hname
        · by_cases hsp : c = ' '
          · rw [step_optionpfx_space hstate (Nat.le_of_not_lt hlt) hsp] at hs
            exact Except.noConfusion hs
          · unfold step at hs
            rw [hstate] at hs
            dsimp only at hs
            rw [if_neg hm, if_neg hlt, if_neg hsp] at hs
            injection hs with he
            subst he
            exact inv_of_plain h1 h2 h3 (fun hx => State.noConfusion hx) (fun hx => State.noConfusion hx) hname
  | Option =>
      have hnP : st.state ≠ State.Prefix := by rw [hstate]; decide
      have hnN : st.state ≠ State.Name := by rw [hstate]; decide
      have hname := h6 hnP hnN
      unfold step at hs
      rw [hstate] at hs
      dsimp only at hs
      by_cases hsp : c = ' '
      · rw [if_pos hsp] at hs
        injection hs with he
        subst he
        exact inv_of_plain (addOption_nodup h1) h2 h3 (fun hx => State.noConfusion hx) (fun hx => State.noConfusion hx)
          hname
      · rw [if_neg hsp] at hs
        by_cases hcol : c = ':'
        · rw [if_pos hcol] at hs
          injection hs with he
          subst he
          exact inv_of_plain h1 h2 h3 (fun hx => State.noConfusion hx) (fun hx => State.noConfusion hx) hname
        · rw [if_neg hcol] at hs
          injection hs with he
          subst he
          exact inv_of_plain h1 h2 h3 hnP hnN hname
  | ParamConnector =>
      have hnP : st.state ≠ State.Prefix := by rw [hstate]; decide
      have hnN : st.state ≠ State.Name := by rw [hstate]; decide
      have hname := h6 hnP hnN
      unfold step at hs
      rw [hstate] at hs
      dsimp only at hs
      by_cases hsp : c = ' '
      · rw [if_pos hsp] at hs
        exact Except.noConfusion hs
      · rw [if_neg hsp] at hs
        by_cases hq : c = '"' ∨ c = '\''
        · rw [if_pos hq] at hs
          injection hs with he
          subst he
          exact inv_of_plain h1 h2 hq (fun hx => State.noConfusion hx) (fun hx => State.noConfusion hx) hname
        · rw [if_neg hq] at hs
          injection hs with he
          subst he
          exact inv_of_plain h1 h2 h3 (fun hx => State.noConfusion hx) (fun hx => State.noConfusion hx) hname
  | Param =>
      have hnP : st.state ≠ State.Prefix := by rw [hstate]; decide
      have hnN : st.state ≠ State.Name := by rw [hstate]; decide
      have hname := h6 hnP hnN
      by_cases hsp : c = ' '
      · rw [step_param_close hstate hsp] at hs
        injection hs with he
        subst he
        exact inv_of_plain h1 (setParam_keys_nodup h2) h3 (fun hx => State.noConfusion hx)
          (fun hx => State.noConfusion hx) hname
      · unfold step at hs
        rw [hstate] at hs
        dsimp only at hs
        rw [if_neg hsp] at hs
        injection hs with he
        subst he
        exact inv_of_plain h1 h2 h3 hnP hnN hname
  | LongParam =>
      have hnP : st.state ≠ State.Prefix := by rw [hstate]; decide
      have hnN : st.state ≠ State.Name := by rw [hstate]; decide
      have hname := h6 hnP hnN
      by_cases hq : c = st.longType
      · rw [step_longparam_close hstate hq] at hs
        injection hs with he
        subst he
        exact inv_of_plain h1 (setParam_keys_nodup h2) h3 (fun hx => State.noConfusion hx)
          (fun hx => State.noConfusion hx) hname
      · by_cases hb : c = '\\'
        · unfold step at hs
          rw [hstate] at hs
          dsimp only at hs
          rw [if_neg hq, if_pos hb] at hs
          injection hs with he
          subst he
          exact inv_of_plain h1 h2 h3 (fun hx => State.noConfusion hx) (fun hx => State.noConfusion hx) hname
        · rw [step_longparam_other hstate hq hb] at hs
          injection hs with he
          subst he
          exact inv_of_plain h1 h2 h3 hnP hnN hname
  | EscapeLongParam =>
      have hnP : st.state ≠ State.Prefix := by rw [hstate]; decide
      have hnN : st.state ≠ State.Name := by rw [hstate]; decide
      have hname := h6 hnP hnN
      unfold step at hs
      rw [hstate] at hs
      dsimp only at hs
      by_cases hor : c = '\\' ∨ c = st.longType
      · rw [if_pos hor] at hs
        injection hs with he
        subst he
        exact inv_of_plain h1 h2 h3 (fun hx => State.noConfusion hx) (fun hx => State.noConfusion hx) hname
      · rw [if_neg hor] at hs
        exact Except.noConfusion hs
  | Argument =>
      have hnP : st.state ≠ State.Prefix := by rw [hstate]; decide
      have hnN : st.state ≠ State.Name := by rw [hstate]; decide
      have hname := h6 hnP hnN
      by_cases hsp : c = ' '
      · rw [step_argument_close hstate hsp] at hs
        injection hs with he
        subst he
        exact inv_of_plain h1 h2 h3 (fun hx => State.noConfusion hx) (fun hx => State.noConfusion hx) hname
      · unfold step at hs
        rw [hstate] at hs
        dsimp only at hs
        rw [if_neg hsp] at hs
        injection hs with he
        subst he
        exact inv_of_plain h1 h2 h3 hnP hnN hname
  | LongArgument =>
      have hnP : st.state ≠ State.Prefix := by rw [hstate]; decide
      have hnN : st.state ≠ State.Name := by rw [hstate]; decide
      have hname := h6 hnP hnN
      by_cases hq : c = st.longType
      · rw [step_longarg_close hstate hq] at hs
        injection hs with he
        subst he
        exact inv_of_plain h1 h2 h3 (fun hx => State.noConfusion hx) (fun hx => State.noConfusion hx) hname
      · by_cases hb : c = '\\'
        · unfold step at hs
          rw [hstate] at hs
          dsimp only at hs
          rw [if_neg hq, if_pos hb] at hs
          injection hs with he
          subst he
          exact inv_of_plain h1 h2 h3 (fun hx => State.noConfusion hx) (fun hx => State.noConfusion hx) hname
        · rw [step_longarg_other hstate hq hb] at hs
          injection hs with he
          subst he
          exact inv_of_plain h1 h2 h3 hnP hnN hname
  | EscapeLongArgument =>
      have hnP : st.state ≠ State.Prefix := by rw [hstate]; decide
      have hnN : st.state ≠ State.Name := by rw [hstate]; decide
      have hname := h6 hnP hnN
      unfold step at hs
      rw [hstate] at hs
      dsimp only at hs
      by_cases hor : c = '\\' ∨ c = st.longType
      · rw [if_pos hor] at hs
        injection hs with he
        subst he
        exact inv_of_plain h1 h2 h3 (fun hx => State.noConfusion hx) (fun hx => State.noConfusion hx) hname
      · rw [if_neg hor] at hs
        exact Except.noConfusion hs

/-- The scan loop preserves the invariant across a block of characters taken
from the scanned text. -/
theorem scanLoop_inv (S : ParserSettings) (src : List Char) :
    ∀ (chars : List Char) (i : Nat) (st st' : ScanSt),
    (∀ j, j < chars.length → src.get? (i + j) = chars.get? j) →
    Inv S src i st →
    scanLoop S src i chars st = Except.ok st' →
    Inv S src (i + chars.length) st' := by
  intro chars
  induction chars with
  | nil =>
      intro i st st' _ hinv hs
      simp only [scanLoop] at hs
      injection hs with he
      subst he
      simpa using hinv
  | cons c rest ih =>
      intro i st st' hpt hinv hs
      simp only [scanLoop] at hs
      cases hstep : step S src i c st with
      | error e =>
          rw [hstep] at hs
          exact Except.noConfusion hs
      | ok st1 =>
          rw [hstep] at hs
          dsimp only at hs
          have hc : src.get? i = some c := by
            have h0 := hpt 0 (by simp)
            simpa using h0
          have hinv1 := step_inv S src i c st st1 hc hinv hstep
          have hpt1 : ∀ j, j < rest.length →
              src.get? (i + 1 + j) = rest.get? j := by
            intro j hj
            have hx := hpt (j + 1) (by simpa using Nat.succ_lt_succ hj)
            rw [List.get?_cons_succ] at hx
            rw [show i + 1 + j = i + (j + 1) from by omega]
            exact hx
          have hres := ih (i + 1) st1 st' hpt1 hinv1 hs
          rw [show i + (c :: rest).length = i + 1 + rest.length from by
            rw [List.length_cons]; omega]
          exact hres

/-- The invariant holds after scanning the characters of the original
source. -/
theorem scanOriginal_inv (S : ParserSettings) (source : String) (st : ScanSt)
    (h : scanOriginal S source = Except.ok st) :
    Inv S (source.data ++ [' ']) source.length st := by
  have hpt : ∀ j, j < source.data.length →
      (source.data ++ [' ']).get? (0 + j) = source.data.get? j := by
    intro j hj
    rw [Nat.zero_add, List.get?_append hj]
  have hinit : Inv S (source.data ++ [' ']) 0 initScan := by
    refine ⟨List.nodup_nil, List.nodup_nil, Or.inl rfl, ?_, ?_, ?_⟩
    · intro _
      exact ⟨rfl, rfl, fun j hj => absurd hj (Nat.not_lt_zero j)⟩
    · intro hN
      exact State.noConfusion hN
    · intro hne _
      exact absurd rfl hne
  have hres := scanLoop_inv S (source.data ++ [' ']) source.data 0 initScan st
    hpt hinit h
  rw [Nat.zero_add] at hres
  exact hres

/-- When the validation gate passes, `parse` is the scan of the original
characters followed by the processing of the sentinel space. -/
theorem parse_eq_of_gate (S : ParserSettings) (source : String)
    (hg : (!validSettings S && !(S.forceParse.getD false)) = false) :
    parse S source =
      match scanOriginal S source with
      | Except.error e => Except.error e
      | Except.ok st =>
          match step S (source.data ++ [' ']) source.length ' ' st with
          | Except.error e => Except.error e
          | Except.ok st' =>
              Except.ok (mkCommand S source (validSettings S) st') := by
  have hcond : ¬((!validSettings S && !(S.forceParse.getD false)) = true) := by
    rw [hg]
    intro hx
    cases hx
  unfold parse scanOriginal
  dsimp only
  rw [if_neg hcond]
  rw [show source.length = source.data.length from rfl]
  rw [scanLoop_append S (source.data ++ [' ']) source.data [' '] 0 initScan]
  cases hso : scanLoop S (source.data ++ [' ']) 0 source.data initScan with
  | error e => rfl
  | ok st =>
      dsimp only
      rw [Nat.zero_add]
      show (match scanLoop S (source.data ++ [' ']) source.data.length [' '] st
          with
        | Except.error e => Except.error e
        | Except.ok st2 =>
            Except.ok (mkCommand S source (validSettings S) st2)) = _
      simp only [scanLoop]
      cases hstep : step S (source.data ++ [' ']) source.data.length ' ' st with
      | error e => rfl
      | ok st2 => rfl

/-- A single step never produces a ValidationError. -/
theorem step_no_validation (S : ParserSettings) (src : List Char) (i : Nat)
    (c : Char) (st : ScanSt) (m : String) :
    step S src i c st ≠ Except.error (PError.validationError m) := by
  intro h
  cases hstate : st.state <;>
    · unfold step at h
      rw [hstate] at h
      dsimp only at h
      repeat
        first
        | exact Except.noConfusion h
        | · injection h with h2
            exact PError.noConfusion h2
        | split at h

/-- The scan loop never produces a ValidationError. -/
theorem scanLoop_no_validation (S : ParserSettings) (src : List Char) :
    ∀ (chars : List Char) (i : Nat) (st : ScanSt) (m : String),
    scanLoop S src i chars st ≠ Except.error (PError.validationError m) := by
  intro chars
  induction chars with
  | nil =>
      intro i st m h
      simp only [scanLoop] at h
      exact Except.noConfusion h
  | cons c rest ih =>
      intro i st m h
      simp only [scanLoop] at h
      cases hstep : step S src i c st with
      | error e =>
          rw [hstep] at h
          dsimp only at h
          injection h with h2
          rw [h2] at hstep
          exact step_no_validation S src i c st m hstep
      | ok st1 =>
          rw [hstep] at h
          dsimp only at h
          exact ih (i + 1) st1 m h

instance {ε α : Type} [DecidableEq ε] [DecidableEq α] :
    DecidableEq (Except ε α) := fun a b =>
  match a, b with
  | Except.ok x, Except.ok y =>
      if h : x = y then Decidable.isTrue (by rw [h])
      else Decidable.isFalse (by intro hc; injection hc; contradiction)
  | Except.error x, Except.error y =>
      if h : x = y then Decidable.isTrue (by rw [h])
      else Decidable.isFalse (by intro hc; injection hc; contradiction)
  | Except.ok _, Except.error _ => Decidable.isFalse (by intro hc; injection hc)
  | Except.error _, Except.ok _ => Decidable.isFalse (by intro hc; injection hc)

/-- The standard settings of the repository's examples: `!` and `-`. -/
def S1 : ParserSettings := { pfx := "!", optionPrefix := "-" }

/-- The settings of the C8 examples: prefix `!`, two-character option prefix. -/
def S8 : ParserSettings := { pfx := "!", optionPrefix := "--" }

/-- Reference predicate for the rule the specification (and the source file's
own documentation of the minimum policy) states for the option prefix: it
fails only when empty, when starting with a double quote or an apostrophe, or
when containing a space anywhere. -/
def specMinimumRejects (o : String) : Bool :=
  o.data.isEmpty
  || (match o.data with
      | '"' :: _ => true
      | '\'' :: _ => true
      | _ => false)
  || o.data.contains ' '

/-- Claim C2: the claim (and the documentation in `src/settings.ts`) says the
option prefix fails validation only when empty, starting with a quote
character, or containing a space.  The code's regex `(^"|')|(^$)|( )` however
groups as (leading double quote) OR (apostrophe anywhere), so `validSettings`
also returns false for the option prefix `a'`, which the stated rule accepts;
the same regex is used under the twitch policy.  The code contradicts its own
documentation (rule 1: "does not start with a quote"). -/
theorem claim2_code_eval :
    validSettings { pfx := "!", optionPrefix := "a'" } = false ∧
    specMinimumRejects "a'" = false ∧
    validSettings { pfx := "!", optionPrefix := "a'",
                    checks := some SettingsChecks.twitch } = false := by
  refine ⟨rfl, rfl, rfl⟩

/-- Claim C3: when a long token closes, the recorded value is the raw slice
with every backslash-quote (of the active quote) replaced by the bare quote
and then every double backslash replaced by a single one, in that order; in
particular the quoted input `"a\"b"` yields the argument `a"b`, and two
backslashes inside a quoted token collapse to one. -/
theorem claim3_unescaping :
    (parse S1 "!n \"a\\\"b\"" =
      Except.ok { parserSettings := S1, name := "n", arguments := ["a\"b"],
                  options := [], parameters := [], source := "!n \"a\\\"b\"",
                  passedChecks := true }) ∧
    (parse S1 "!n \"x\\\\y\"" =
      Except.ok { parserSettings := S1, name := "n", arguments := ["x\\y"],
                  options := [], parameters := [], source := "!n \"x\\\\y\"",
                  passedChecks := true }) ∧
    (∀ (S : ParserSettings) (src : List Char) (i : Nat) (st : ScanSt),
      st.state = State.LongArgument →
      step S src i st.longType st =
        Except.ok { st with
          arguments := st.arguments ++
            [String.mk (replaceAll '\\' ['\\'] ['\\']
              (replaceAll '\\' [st.longType] [st.longType]
                (listSub src st.bufferStartIndex i).data))],
          bufferStartIndex := i, state := State.Default }) ∧
    (∀ (S : ParserSettings) (src : List Char) (i : Nat) (st : ScanSt),
      st.state = State.LongParam →
      step S src i st.longType st =
        Except.ok { st with
          parameters := setParam st.parameters st.keyBuffer
            (String.mk (replaceAll '\\' ['\\'] ['\\']
              (replaceAll '\\' [st.longType] [st.longType]
                (listSub src st.bufferStartIndex i).data))),
          bufferStartIndex := i, state := State.Default }) := by
  refine ⟨rfl, rfl, ?_, ?_⟩
  · intro S src i st h
    exact step_longarg_close h rfl
  · intro S src i st h
    exact step_longparam_close h rfl

/-- Witness for C3: closing an (empty) long argument at index 0 records the
unescaped slice. -/
theorem claim3_witness :
    step S1 [] 0 '"'
      { name := "n", arguments := [], options := [], parameters := [],
        bufferStartIndex := 0, keyBuffer := "", longType := '"',
        state := State.LongArgument } =
      Except.ok { name := "n", arguments := [""], options := [],
                  parameters := [], bufferStartIndex := 0, keyBuffer := "",
                  longType := '"', state := State.Default } := by
  have h := claim3_unescaping
  exact h.2.2.1 S1 [] 0
    { name := "n", arguments := [], options := [], parameters := [],
      bufferStartIndex := 0, keyBuffer := "", longType := '"',
      state := State.LongArgument } rfl

/-- Counterexample for C4: with prefix `!!`, the input `! x` meets a space at
index 1 before the prefix is fully consumed; the code raises the "expected"
mismatch error there, not the "can't have space after prefix" error the claim
assigns to that situation. -/
theorem claim4_cex :
    parse { pfx := "!!", optionPrefix := "-" } "! x" =
      Except.error (PError.parseError 1 "expected '!'") := rfl

/-- Claim C4 (amended): a character that mismatches the next expected prefix
character while the prefix is not yet fully consumed (a space included)
raises the "expected" ParseError at the current index, so with prefix `!` the
input `#ping` fails at index 0; the "can't have space after prefix" error is
raised when a space arrives once the prefix is fully consumed, before any
name character. -/
theorem claim4_amended :
    (∀ (S : ParserSettings) (src : List Char) (i : Nat) (c : Char)
       (st : ScanSt), st.state = State.Prefix →
      S.pfx.data.get? (i - st.bufferStartIndex) ≠ some c →
      i - st.bufferStartIndex < S.pfx.length →
      step S src i c st = Except.error (PError.parseError i
        ("expected '" ++
          String.mk [S.pfx.data.getD (i - st.bufferStartIndex) ' '] ++
          "'"))) ∧
    (∀ (S : ParserSettings) (src : List Char) (i : Nat) (c : Char)
       (st : ScanSt), st.state = State.Prefix →
      S.pfx.length ≤ i - st.bufferStartIndex → c = ' ' →
      step S src i c st = Except.error
        (PError.parseError i "can't have space after prefix")) ∧
    parse S1 "#ping" = Except.error (PError.parseError 0 "expected '!'") := by
  refine ⟨?_, ?_, rfl⟩
  · intro S src i c st h h1 h2
    exact step_pfx_mismatch h h1 h2
  · intro S src i c st h h2 hc
    exact step_pfx_space h h2 hc

/-- Witness for C4: the first scanned character of `#ping` mismatches `!`. -/
theorem claim4_witness :
    step S1 [] 0 '#' initScan =
      Except.error (PError.parseError 0 "expected '!'") := by
  have h := claim4_amended
  exact h.1 S1 [] 0 '#' initScan rfl (by decide) (by decide)

/-- Counterexample for C8: with option prefix `--`, the input `!n - x y`
mismatches at the space at index 4 (after one consumed `-`).  The code's
fallback consumes that space inside the transition, so the argument closes
only at index 6 and `parse` yields the arguments `["- x", "y"]`; had the scan
continued in the Argument state from the current index (as claimed), the
Argument rule at index 4 (second conjunct) would have closed the argument as
`"-"`, yielding `["-", "x", "y"]`. -/
theorem claim8_cex :
    parse S8 "!n - x y" =
      Except.ok { parserSettings := S8, name := "n", arguments := ["- x", "y"],
                  options := [], parameters := [], source := "!n - x y",
                  passedChecks := true } ∧
    step S8 (("!n - x y").data ++ [' ']) 4 ' '
      { name := "n", arguments := [], options := [], parameters := [],
        bufferStartIndex := 3, keyBuffer := "", longType := '"',
        state := State.Argument } =
      Except.ok { name := "n", arguments := ["-"], options := [],
                  parameters := [], bufferStartIndex := 4, keyBuffer := "",
                  longType := '"', state := State.Default } := ⟨rfl, rfl⟩

/-- Claim C8 (amended): on a mismatch before the option prefix is fully
consumed, the scan switches to the Argument state with the token start
unchanged (the eventual argument starts at the option prefix's first
character); the mismatching character itself is consumed by this transition
without being examined under the Argument rules (a mismatching space is
absorbed into the argument), and scanning resumes in the Argument state at
the next index. -/
theorem claim8_amended :
    (∀ (S : ParserSettings) (src : List Char) (i : Nat) (c : Char)
       (st : ScanSt), st.state = State.OptionPrefix →
      S.optionPrefix.data.get? (i - st.bufferStartIndex) ≠ some c →
      i - st.bufferStartIndex < S.optionPrefix.length →
      step S src i c st = Except.ok { st with state := State.Argument }) ∧
    (parse S8 "!n -a b" =
      Except.ok { parserSettings := S8, name := "n", arguments := ["-a", "b"],
                  options := [], parameters := [], source := "!n -a b",
                  passedChecks := true }) := by
  refine ⟨?_, rfl⟩
  intro S src i c st h h1 h2
  exact step_optionpfx_fallback h h1 h2

/-- Witness for C8: the mismatch of `a` against the second `-` of the option
prefix falls back to an Argument with the token start kept at 3. -/
theorem claim8_witness :
    step S8 [] 4 'a'
      { name := "n", arguments := [], options := [], parameters := [],
        bufferStartIndex := 3, keyBuffer := "", longType := '"',
        state := State.OptionPrefix } =
      Except.ok { name := "n", arguments := [], options := [],
                  parameters := [], bufferStartIndex := 3, keyBuffer := "",
                  longType := '"', state := State.Argument } := by
  have h := claim8_amended
  exact h.1 S8 [] 4 'a'
    { name := "n", arguments := [], options := [], parameters := [],
      bufferStartIndex := 3, keyBuffer := "", longType := '"',
      state := State.OptionPrefix } rfl (by decide) (by decide)

/-- Claim C10: in the Name state only a space ends the token, so quote
characters and the option prefix are not recognised there: `!-opt arg` yields
the name `-opt` and `!"a b" c` yields the name `"a`. -/
theorem claim10_name_token :
    (∀ (S : ParserSettings) (src : List Char) (i : Nat) (c : Char)
       (st : ScanSt), st.state = State.Name → c ≠ ' ' →
      step S src i c st = Except.ok st) ∧
    (parse S1 "!-opt arg" =
      Except.ok { parserSettings := S1, name := "-opt", arguments := ["arg"],
                  options := [], parameters := [], source := "!-opt arg",
                  passedChecks := true }) ∧
    (parse S1 "!\"a b\" c" =
      Except.ok { parserSettings := S1, name := "\"a",
                  arguments := ["b\"", "c"], options := [], parameters := [],
                  source := "!\"a b\" c", passedChecks := true }) := by
  refine ⟨?_, rfl, rfl⟩
  intro S src i c st h hc
  exact step_name_other h hc

/-- Witness for C10: a non-space character leaves the Name state alone. -/
theorem claim10_witness :
    step S1 [] 5 'x'
      { name := "", arguments := [], options := [], parameters := [],
        bufferStartIndex := 1, keyBuffer := "", longType := '"',
        state := State.Name } =
      Except.ok { name := "", arguments := [], options := [],
                  parameters := [], bufferStartIndex := 1, keyBuffer := "",
                  longType := '"', state := State.Name } := by
  have h := claim10_name_token
  exact h.1 S1 [] 5 'x'
    { name := "", arguments := [], options := [], parameters := [],
      bufferStartIndex := 1, keyBuffer := "", longType := '"',
      state := State.Name } rfl (by decide)

/-- Claim C5: `parse` raises the ValidationError (message only, no index,
before any scanning) exactly when the policy predicate on the configuration
used is false and `forceParse` is false or absent; otherwise it scans, and
any returned Command carries `passedChecks = validSettings`, so a forced
parse of an invalid configuration yields `passedChecks = false` and a valid
configuration yields `passedChecks = true`. -/
theorem claim5_validation_gating :
    ∀ (S : ParserSettings) (source : String),
    ((validSettings S = false ∧ S.forceParse.getD false = false) →
      parse S source =
        Except.error (PError.validationError "error: validation failed")) ∧
    (∀ m, parse S source = Except.error (PError.validationError m) →
      validSettings S = false ∧ S.forceParse.getD false = false ∧
        m = "error: validation failed") ∧
    (∀ cmd, parse S source = Except.ok cmd →
      cmd.passedChecks = validSettings S) := by
  intro S source
  refine ⟨?_, ?_, ?_⟩
  · rintro ⟨hv, hf⟩
    unfold parse
    dsimp only
    rw [hv, hf]
    rfl
  · intro m hp
    by_cases hg : (!validSettings S && !(S.forceParse.getD false)) = true
    · have hv : validSettings S = false := by
        cases hvb : validSettings S
        · rfl
        · rw [hvb] at hg
          cases hfb : S.forceParse.getD false <;> rw [hfb] at hg <;>
            exact absurd hg (by decide)
      have hf : S.forceParse.getD false = false := by
        cases hfb : S.forceParse.getD false
        · rfl
        · rw [hfb] at hg
          cases hvb : validSettings S <;> rw [hvb] at hg <;>
            exact absurd hg (by decide)
      unfold parse at hp
      dsimp only at hp
      rw [if_pos hg] at hp
      injection hp with h2
      injection h2 with h3
      exact ⟨hv, hf, h3.symm⟩
    · unfold parse at hp
      dsimp only at hp
      rw [if_neg hg] at hp
      cases hsl : scanLoop S (source.data ++ [' ']) 0
          (source.data ++ [' ']) initScan with
      | error e =>
          rw [hsl] at hp
          dsimp only at hp
          injection hp with h2
          rw [h2] at hsl
          exact absurd hsl
            (scanLoop_no_validation S (source.data ++ [' '])
              (source.data ++ [' ']) 0 initScan m)
      | ok st =>
          rw [hsl] at hp
          dsimp only at hp
          exact Except.noConfusion hp
  · intro cmd hp
    by_cases hg : (!validSettings S && !(S.forceParse.getD false)) = true
    · unfold parse at hp
      dsimp only at hp
      rw [if_pos hg] at hp
      exact Except.noConfusion hp
    · unfold parse at hp
      dsimp only at hp
      rw [if_neg hg] at hp
      cases hsl : scanLoop S (source.data ++ [' ']) 0
          (source.data ++ [' ']) initScan with
      | error e =>
          rw [hsl] at hp
          dsimp only at hp
          exact Except.noConfusion hp
      | ok st =>
          rw [hsl] at hp
          dsimp only at hp
          injection hp with h2
          rw [← h2]
          rfl

/-- Witness for C5: the empty option prefix fails the minimum policy, so
`parse` raises the ValidationError. -/
theorem claim5_witness :
    parse { pfx := "!", optionPrefix := "" } "!x" =
      Except.error (PError.validationError "error: validation failed") := by
  have h := claim5_validation_gating { pfx := "!", optionPrefix := "" } "!x"
  exact h.1 ⟨rfl, rfl⟩

/-- Counterexample for C1: the input `!n -` reaches the end of the original
input in the OptionPrefix state (first conjunct); processing the appended
sentinel space there does not silently discard the token — it raises the
"expected option" ParseError (second conjunct). -/
theorem claim1_cex :
    scanOriginal S1 "!n -" =
      Except.ok { name := "n", arguments := [], options := [],
                  parameters := [], bufferStartIndex := 3, keyBuffer := "",
                  longType := '"', state := State.OptionPrefix } ∧
    parse S1 "!n -" =
      Except.error
        (PError.parseError 4 "expected option, options can't be empty") :=
  ⟨rfl, rfl⟩

/-- Claim C1 (amended): the sentinel space closes and records a Name, Option,
Param or Argument token open at the end of the input; an open LongArgument or
LongParam token is silently discarded and a Command is returned; but in
EscapeLongArgument or EscapeLongParam the sentinel raises the
"couldn't escape" ParseError, in ParamConnector the "parameter value can't be
empty" ParseError, in OptionPrefix with the option prefix fully consumed the
"expected option" ParseError (with it not fully consumed and no space
expected, the reinterpreted argument is silently discarded), and in the
Prefix state the sentinel raises the "expected" or "can't have space after
prefix" ParseError unless it matches the next expected prefix character, in
which case a Command (with empty name) is returned. -/
theorem claim1_amended :
    ∀ (S : ParserSettings) (source : String) (st : ScanSt),
    validSettings S = true →
    scanOriginal S source = Except.ok st →
    (st.state = State.Name →
      parse S source = Except.ok (mkCommand S source true { st with
        name := listSub (source.data ++ [' ']) st.bufferStartIndex
          source.length,
        bufferStartIndex := source.length, state := State.Default })) ∧
    (st.state = State.Option →
      parse S source = Except.ok (mkCommand S source true { st with
        options := addOption st.options
          (listSub (source.data ++ [' ']) st.bufferStartIndex source.length),
        bufferStartIndex := source.length, state := State.Default })) ∧
    (st.state = State.Param →
      parse S source = Except.ok (mkCommand S source true { st with
        parameters := setParam st.parameters st.keyBuffer
          (listSub (source.data ++ [' ']) st.bufferStartIndex source.length),
        bufferStartIndex := source.length, state := State.Default })) ∧
    (st.state = State.Argument →
      parse S source = Except.ok (mkCommand S source true { st with
        arguments := st.arguments ++
          [listSub (source.data ++ [' ']) st.bufferStartIndex source.length],
        bufferStartIndex := source.length, state := State.Default })) ∧
    (st.state = State.LongArgument →
      parse S source = Except.ok (mkCommand S source true st)) ∧
    (st.state = State.LongParam →
      parse S source = Except.ok (mkCommand S source true st)) ∧
    (st.state = State.EscapeLongArgument →
      parse S source = Except.error (PError.parseError source.length
        "couldn't escape with character ' '")) ∧
    (st.state = State.EscapeLongParam →
      parse S source = Except.error (PError.parseError source.length
        "couldn't escape with character ' '")) ∧
    (st.state = State.ParamConnector →
      parse S source = Except.error (PError.parseError source.length
        "parameter value can't be empty (use \"\" instead)")) ∧
    (st.state = State.OptionPrefix →
      S.optionPrefix.length ≤ source.length - st.bufferStartIndex →
      parse S source = Except.error (PError.parseError source.length
        "expected option, options can't be empty")) ∧
    (st.state = State.OptionPrefix →
      source.length - st.bufferStartIndex < S.optionPrefix.length →
      S.optionPrefix.data.get? (source.length - st.bufferStartIndex) ≠
        some ' ' →
      parse S source =
        Except.ok (mkCommand S source true { st with
          state := State.Argument })) ∧
    (st.state = State.Prefix → S.pfx.data.get? source.length = some ' ' →
      parse S source = Except.ok (mkCommand S source true st)) ∧
    (st.state = State.Prefix → S.pfx.data.get? source.length ≠ some ' ' →
      source.length < S.pfx.length →
      parse S source = Except.error (PError.parseError source.length
        ("expected '" ++ String.mk [S.pfx.data.getD source.length ' '] ++
          "'"))) ∧
    (st.state = State.Prefix → S.pfx.data.get? source.length ≠ some ' ' →
      S.pfx.length ≤ source.length →
      parse S source = Except.error (PError.parseError source.length
        "can't have space after prefix")) := by
  intro S source st hv hscan
  have hg : (!validSettings S && !(S.forceParse.getD false)) = false := by
    rw [hv]
    rfl
  have hpe := parse_eq_of_gate S source hg
  rw [hv] at hpe
  rw [hscan] at hpe
  dsimp only at hpe
  have hInv := scanOriginal_inv S source st hscan
  have hne : (' ' : Char) ≠ st.longType := by
    rcases hInv.longQuote with h | h <;> rw [h] <;> decide
  refine ⟨?_, ?_, ?_, ?_, ?_, ?_, ?_, ?_, ?_, ?_, ?_, ?_, ?_, ?_⟩
  · intro hstate
    rw [step_name_close hstate rfl] at hpe
    dsimp only at hpe
    exact hpe
  · intro hstate
    rw [step_option_close hstate rfl] at hpe
    dsimp only at hpe
    exact hpe
  · intro hstate
    rw [step_param_close hstate rfl] at hpe
    dsimp only at hpe
    exact hpe
  · intro hstate
    rw [step_argument_close hstate rfl] at hpe
    dsimp only at hpe
    exact hpe
  · intro hstate
    rw [step_longarg_other hstate hne (by decide)] at hpe
    dsimp only at hpe
    exact hpe
  · intro hstate
    rw [step_longparam_other hstate hne (by decide)] at hpe
    dsimp only at hpe
    exact hpe
  · intro hstate
    rw [step_escapelongarg_fail hstate (by decide) hne] at hpe
    dsimp only at hpe
    exact hpe
  · intro hstate
    rw [step_escapelongparam_fail hstate (by decide) hne] at hpe
    dsimp only at hpe
    exact hpe
  · intro hstate
    rw [step_paramconnector_space hstate rfl] at hpe
    dsimp only at hpe
    exact hpe
  · intro hstate hle
    rw [step_optionpfx_space hstate hle rfl] at hpe
    dsimp only at hpe
    exact hpe
  · intro hstate hlt hget
    rw [step_optionpfx_fallback hstate hget hlt] at hpe
    dsimp only at hpe
    exact hpe
  · intro hstate hsp
    obtain ⟨hnm, hbsi, hmat⟩ := hInv.inPfx hstate
    have hm : S.pfx.data.get? (source.length - st.bufferStartIndex) =
        some ' ' := by
      rw [hbsi, Nat.sub_zero]
      exact hsp
    rw [step_pfx_match hstate hm] at hpe
    dsimp only at hpe
    exact hpe
  · intro hstate hsp hlt
    obtain ⟨hnm, hbsi, hmat⟩ := hInv.inPfx hstate
    have hm : ¬(S.pfx.data.get? (source.length - st.bufferStartIndex) =
        some ' ') := by
      rw [hbsi, Nat.sub_zero]
      exact hsp
    have hlt' : source.length - st.bufferStartIndex < S.pfx.length := by
      rw [hbsi, Nat.sub_zero]
      exact hlt
    rw [step_pfx_mismatch hstate hm hlt'] at hpe
    rw [hbsi, Nat.sub_zero] at hpe
    dsimp only at hpe
    exact hpe
  · intro hstate hsp hge
    obtain ⟨hnm, hbsi, hmat⟩ := hInv.inPfx hstate
    have hge' : S.pfx.length ≤ source.length - st.bufferStartIndex := by
      rw [hbsi, Nat.sub_zero]
      exact hge
    rw [step_pfx_space hstate hge' rfl] at hpe
    dsimp only at hpe
    exact hpe

/-- Witness for C1: an Argument token open at the end of `!n ab` is closed by
the sentinel and recorded. -/
theorem claim1_witness :
    parse S1 "!n ab" =
      Except.ok { parserSettings := S1, name := "n", arguments := ["ab"],
                  options := [], parameters := [], source := "!n ab",
                  passedChecks := true } := by
  have h := claim1_amended S1 "!n ab"
    { name := "n", arguments := [], options := [], parameters := [],
      bufferStartIndex := 3, keyBuffer := "", longType := '"',
      state := State.Argument } rfl rfl
  exact h.2.2.2.1 rfl

/-- Counterexample for C7: the input `!n "a\` ends inside an escape sequence
of an unterminated quoted token (first conjunct); `parse` raises the
"couldn't escape" ParseError at the sentinel instead of dropping the token
(second conjunct). -/
theorem claim7_cex :
    scanOriginal S1 "!n \"a\\" =
      Except.ok { name := "n", arguments := [], options := [],
                  parameters := [], bufferStartIndex := 4, keyBuffer := "",
                  longType := '"', state := State.EscapeLongArgument } ∧
    parse S1 "!n \"a\\" =
      Except.error
        (PError.parseError 6 "couldn't escape with character ' '") :=
  ⟨rfl, rfl⟩

/-- Claim C7 (amended): an unterminated quoted token at the end of the input
raises no error provided the input does not end in the middle of an escape
sequence: ending in LongArgument or LongParam, the token is dropped and a
Command built from the earlier tokens is returned; ending in
EscapeLongArgument or EscapeLongParam (a trailing backslash), the sentinel
raises the "couldn't escape" ParseError. -/
theorem claim7_amended :
    ∀ (S : ParserSettings) (source : String) (st : ScanSt),
    validSettings S = true →
    scanOriginal S source = Except.ok st →
    ((st.state = State.LongArgument ∨ st.state = State.LongParam) →
      parse S source = Except.ok (mkCommand S source true st)) ∧
    ((st.state = State.EscapeLongArgument ∨
        st.state = State.EscapeLongParam) →
      parse S source = Except.error (PError.parseError source.length
        "couldn't escape with character ' '")) := by
  intro S source st hv hscan
  have hg : (!validSettings S && !(S.forceParse.getD false)) = false := by
    rw [hv]
    rfl
  have hpe := parse_eq_of_gate S source hg
  rw [hv] at hpe
  rw [hscan] at hpe
  dsimp only at hpe
  have hInv := scanOriginal_inv S source st hscan
  have hne : (' ' : Char) ≠ st.longType := by
    rcases hInv.longQuote with h | h <;> rw [h] <;> decide
  constructor
  · rintro (hstate | hstate)
    · rw [step_longarg_other hstate hne (by decide)] at hpe
      dsimp only at hpe
      exact hpe
    · rw [step_longparam_other hstate hne (by decide)] at hpe
      dsimp only at hpe
      exact hpe
  · rintro (hstate | hstate)
    · rw [step_escapelongarg_fail hstate (by decide) hne] at hpe
      dsimp only at hpe
      exact hpe
    · rw [step_escapelongparam_fail hstate (by decide) hne] at hpe
      dsimp only at hpe
      exact hpe

/-- Witness for C7: the unterminated quoted token of `!n "abc` is dropped
and the Command of the earlier tokens is returned. -/
theorem claim7_witness :
    parse S1 "!n \"abc" =
      Except.ok { parserSettings := S1, name := "n", arguments := [],
                  options := [], parameters := [], source := "!n \"abc",
                  passedChecks := true } := by
  have h := claim7_amended S1 "!n \"abc"
    { name := "n", arguments := [], options := [], parameters := [],
      bufferStartIndex := 4, keyBuffer := "", longType := '"',
      state := State.LongArgument } rfl rfl
  exact h.1 (Or.inl rfl)

/-- The invariant holds for the freshly initialised scan variables. -/
theorem initScan_inv (S : ParserSettings) (src : List Char) :
    Inv S src 0 initScan := by
  refine ⟨List.nodup_nil, List.nodup_nil, Or.inl rfl, ?_, ?_, ?_⟩
  · intro _
    exact ⟨rfl, rfl, fun j hj => absurd hj (Nat.not_lt_zero j)⟩
  · intro hN
    exact State.noConfusion hN
  · intro hne _
    exact absurd rfl hne

/-- Counterexample for C6: with the policy-valid prefix `do ` (spaces are
allowed in the prefix under the minimum policy), parsing the input `do`
succeeds — the whole input plus the sentinel matches an initial segment of
the prefix, the scan never leaves the Prefix state — and the returned Command
has the empty name instead of a malformed-prefix error being raised. -/
theorem claim6_cex :
    parse { pfx := "do ", optionPrefix := "-" } "do" =
      Except.ok { parserSettings := { pfx := "do ", optionPrefix := "-" },
                  name := "", arguments := [], options := [],
                  parameters := [], source := "do",
                  passedChecks := true } := rfl

/-- Claim C6 (amended): a scan step only ever appends to `arguments` (input
order is preserved, duplicates allowed); a returned Command has
duplicate-free `options` and one value per parameter key; a repeated
parameter key keeps the last value set; repeated identical options collapse
and duplicate arguments are kept (concrete runs); and `name` is empty in a
returned Command only when the input followed by the sentinel space is an
initial segment of the configured prefix (the scan never left the Prefix
state) — otherwise the name is nonempty. -/
theorem claim6_amended :
    (∀ (S : ParserSettings) (src : List Char) (i : Nat) (c : Char)
       (st st' : ScanSt), step S src i c st = Except.ok st' →
      ∃ t, st'.arguments = st.arguments ++ t) ∧
    (∀ (S : ParserSettings) (source : String) (cmd : Command),
      parse S source = Except.ok cmd →
      cmd.options.Nodup ∧ (cmd.parameters.map Prod.fst).Nodup) ∧
    (∀ (ps : List (String × String)) (k v : String),
      lookupParam (setParam ps k v) k = some v) ∧
    (parse S1 "!n -k:a -k:b" =
      Except.ok { parserSettings := S1, name := "n", arguments := [],
                  options := [], parameters := [("k", "b")],
                  source := "!n -k:a -k:b", passedChecks := true }) ∧
    (parse S1 "!n -opt -opt" =
      Except.ok { parserSettings := S1, name := "n", arguments := [],
                  options := ["opt"], parameters := [],
                  source := "!n -opt -opt", passedChecks := true }) ∧
    (parse S1 "!n a a" =
      Except.ok { parserSettings := S1, name := "n", arguments := ["a", "a"],
                  options := [], parameters := [], source := "!n a a",
                  passedChecks := true }) ∧
    (∀ (S : ParserSettings) (source : String) (cmd : Command),
      parse S source = Except.ok cmd → cmd.name = "" →
      initSegOf (source.data ++ [' ']) S.pfx.data) := by
  refine ⟨?_, ?_, ?_, rfl, rfl, rfl, ?_⟩
  · intro S src i c st st' hs
    cases hstate : st.state <;>
      · unfold step at hs
        rw [hstate] at hs
        dsimp only at hs
        repeat'
          first
          | exact Except.noConfusion hs
          | (injection hs with he
             subst he
             first
             | exact ⟨[], (List.append_nil _).symm⟩
             | exact ⟨_, rfl⟩)
          | split at hs
  · intro S source cmd hp
    by_cases hg : (!validSettings S && !(S.forceParse.getD false)) = true
    · unfold parse at hp
      dsimp only at hp
      rw [if_pos hg] at hp
      exact Except.noConfusion hp
    · unfold parse at hp
      dsimp only at hp
      rw [if_neg hg] at hp
      cases hsl : scanLoop S (source.data ++ [' ']) 0
          (source.data ++ [' ']) initScan with
      | error e =>
          rw [hsl] at hp
          dsimp only at hp
          exact Except.noConfusion hp
      | ok stF =>
          rw [hsl] at hp
          dsimp only at hp
          injection hp with h2
          have hpt : ∀ j, j < (source.data ++ [' ']).length →
              (source.data ++ [' ']).get? (0 + j) =
                (source.data ++ [' ']).get? j := by
            intro j _
            rw [Nat.zero_add]
          have hInv := scanLoop_inv S (source.data ++ [' '])
            (source.data ++ [' ']) 0 initScan stF hpt
            (initScan_inv S (source.data ++ [' '])) hsl
          rw [← h2]
          exact ⟨hInv.optNodup, hInv.keyNodup⟩
  · intro ps k v
    exact lookupParam_setParam ps k v
  · intro S source cmd hp hname
    have hg : (!validSettings S && !(S.forceParse.getD false)) = false := by
      cases hx : (!validSettings S && !(S.forceParse.getD false))
      · rfl
      · exfalso
        unfold parse at hp
        dsimp only at hp
        rw [if_pos hx] at hp
        exact Except.noConfusion hp
    rw [parse_eq_of_gate S source hg] at hp
    cases hso : scanOriginal S source with
    | error e =>
        rw [hso] at hp
        dsimp only at hp
        exact Except.noConfusion hp
    | ok st =>
        rw [hso] at hp
        dsimp only at hp
        have hInv := scanOriginal_inv S source st hso
        have hne : (' ' : Char) ≠ st.longType := by
          rcases hInv.longQuote with h | h <;> rw [h] <;> decide
        cases hstate : st.state with
        | Prefix =>
            obtain ⟨hnm, hbsi, hmat⟩ := hInv.inPfx hstate
            by_cases hm : S.pfx.data.get?
                (source.length - st.bufferStartIndex) = some ' '
            · apply initSegOf_of_pointwise
              intro j hj
              rw [List.length_append, List.length_singleton] at hj
              rcases Nat.lt_succ_iff_lt_or_eq.mp hj with hj' | hj'
              · exact hmat j hj'
              · subst hj'
                rw [List.get?_append_right (Nat.le_refl _), Nat.sub_self]
                rw [hbsi, Nat.sub_zero] at hm
                exact hm.symm
            · by_cases hlt : source.length - st.bufferStartIndex <
                  S.pfx.length
              · rw [step_pfx_mismatch hstate hm hlt] at hp
                dsimp only at hp
                exact Except.noConfusion hp
              · rw [step_pfx_space hstate (Nat.le_of_not_lt hlt) rfl] at hp
                dsimp only at hp
                exact Except.noConfusion hp
        | Name =>
            obtain ⟨hnm, hlt, hlen⟩ := hInv.inName hstate
            rw [step_name_close hstate rfl] at hp
            dsimp only at hp
            injection hp with he
            exfalso
            apply listSub_ne_empty hlt hlen
            rw [← he] at hname
            exact hname
        | Default =>
            have hnm := hInv.named (by rw [hstate]; decide)
              (by rw [hstate]; decide)
            rw [step_default_space hstate rfl] at hp
            dsimp only at hp
            injection hp with he
            exfalso
            apply hnm
            rw [← he] at hname
            exact hname
        | OptionPrefix =>
            have hnm := hInv.named (by rw [hstate]; decide)
              (by rw [hstate]; decide)
            by_cases hm : S.optionPrefix.data.get?
                (source.length - st.bufferStartIndex) = some ' '
            · rw [step_optionpfx_match hstate hm] at hp
              dsimp only at hp
              injection hp with he
              exfalso
              apply hnm
              rw [← he] at hname
              exact hname
            · by_cases hlt : source.length - st.bufferStartIndex <
                  S.optionPrefix.length
              · rw [step_optionpfx_fallback hstate hm hlt] at hp
                dsimp only at hp
                injection hp with he
                exfalso
                apply hnm
                rw [← he] at hname
                exact hname
              · rw [step_optionpfx_space hstate (Nat.le_of_not_lt hlt)
                    rfl] at hp
                dsimp only at hp
                exact Except.noConfusion hp
        | Option =>
            have hnm := hInv.named (by rw [hstate]; decide)
              (by rw [hstate]; decide)
            rw [step_option_close hstate rfl] at hp
            dsimp only at hp
            injection hp with he
            exfalso
            apply hnm
            rw [← he] at hname
            exact hname
        | ParamConnector =>
            rw [step_paramconnector_space hstate rfl] at hp
            dsimp only at hp
            exact Except.noConfusion hp
        | Param =>
            have hnm := hInv.named (by rw [hstate]; decide)
              (by rw [hstate]; decide)
            rw [step_param_close hstate rfl] at hp
            dsimp only at hp
            injection hp with he
            exfalso
            apply hnm
            rw [← he] at hname
            exact hname
        | LongParam =>
            have hnm := hInv.named (by rw [hstate]; decide)
              (by rw [hstate]; decide)
            rw [step_longparam_other hstate hne (by decide)] at hp
            dsimp only at hp
            injection hp with he
            exfalso
            apply hnm
            rw [← he] at hname
            exact hname
        | EscapeLongParam =>
            rw [step_escapelongparam_fail hstate (by decide) hne] at hp
            dsimp only at hp
            exact Except.noConfusion hp
        | Argument =>
            have hnm := hInv.named (by rw [hstate]; decide)
              (by rw [hstate]; decide)
            rw [step_argument_close hstate rfl] at hp
            dsimp only at hp
            injection hp with he
            exfalso
            apply hnm
            rw [← he] at hname
            exact hname
        | LongArgument =>
            have hnm := hInv.named (by rw [hstate]; decide)
              (by rw [hstate]; decide)
            rw [step_longarg_other hstate hne (by decide)] at hp
            dsimp only at hp
            injection hp with he
            exfalso
            apply hnm
            rw [← he] at hname
            exact hname
        | EscapeLongArgument =>
            rw [step_escapelongarg_fail hstate (by decide) hne] at hp
            dsimp only at hp
            exact Except.noConfusion hp

/-- Witness for C6: duplicate options collapsed in a concrete parse, and the
last set value of a repeated key wins. -/
theorem claim6_witness :
    (["opt"] : List String).Nodup ∧
    lookupParam (setParam [("k", "a")] "k" "b") "k" = some "b" := by
  have h := claim6_amended
  constructor
  · exact (h.2.1 S1 "!n -opt -opt"
      { parserSettings := S1, name := "n", arguments := [],
        options := ["opt"], parameters := [], source := "!n -opt -opt",
        passedChecks := true } rfl).1
  · exact h.2.2.1 [("k", "a")] "k" "b"

/-- While the characters being processed continue an initial segment of the
configured prefix, the scan stays in the Prefix state unchanged. -/
theorem scanLoop_pfx_chunk (S : ParserSettings) (src : List Char) :
    ∀ (t done : List Char) (st : ScanSt), st.state = State.Prefix →
    st.bufferStartIndex = 0 →
    (∃ rem, done ++ (t ++ rem) = S.pfx.data) →
    scanLoop S src done.length t st = Except.ok st := by
  intro t
  induction t with
  | nil =>
      intro done st _ _ _
      rfl
  | cons c t' ih =>
      intro done st hstate hbsi hex
      obtain ⟨rem, hrem⟩ := hex
      have hget : S.pfx.data.get? done.length = some c := by
        rw [← hrem]
        rw [List.get?_append_right (Nat.le_refl _), Nat.sub_self]
        rfl
      simp only [scanLoop]
      rw [step_pfx_match hstate (by rw [hbsi, Nat.sub_zero]; exact hget)]
      dsimp only
      have hnext := ih (done ++ [c]) st hstate hbsi
        ⟨rem, by rw [← hrem]; simp⟩
      rw [List.length_append, List.length_singleton] at hnext
      exact hnext

/-- Claim C9: for every policy-valid configuration with prefix `P`, parsing
the string `P ++ "name "` succeeds with name `"name"` and empty arguments,
options and parameters. -/
theorem claim9_prefix_name :
    ∀ (S : ParserSettings), validSettings S = true →
    parse S (S.pfx ++ "name ") =
      Except.ok { parserSettings := S, name := "name", arguments := [],
                  options := [], parameters := [],
                  source := S.pfx ++ "name ", passedChecks := true } := by
  intro S hv
  have hg : (!validSettings S && !(S.forceParse.getD false)) = false := by
    rw [hv]
    rfl
  have hpe := parse_eq_of_gate S (S.pfx ++ "name ") hg
  rw [hv] at hpe
  have hdata : (S.pfx ++ "name ").data = S.pfx.data ++ "name ".data :=
    String.data_append S.pfx "name "
  have hsub : listSub ((S.pfx.data ++ "name ".data) ++ [' '])
      S.pfx.data.length (S.pfx.data.length + 1 + 1 + 1 + 1) = "name" := by
    unfold listSub
    rw [List.append_assoc, List.drop_left]
    rw [show S.pfx.data.length + 1 + 1 + 1 + 1 - S.pfx.data.length = 4 from
      by omega]
    rfl
  have hchunk : scanLoop S ((S.pfx.data ++ "name ".data) ++ [' ']) 0
      S.pfx.data initScan = Except.ok initScan :=
    scanLoop_pfx_chunk S ((S.pfx.data ++ "name ".data) ++ [' '])
      S.pfx.data [] initScan rfl rfl ⟨[], by simp⟩
  have hle : S.pfx.length ≤
      S.pfx.data.length - initScan.bufferStartIndex := by
    rw [show initScan.bufferStartIndex = 0 from rfl, Nat.sub_zero]
    exact Nat.le_refl _
  have h1 : step S ((S.pfx.data ++ "name ".data) ++ [' '])
      S.pfx.data.length 'n' initScan =
      Except.ok
        { name := "", arguments := [], options := [],
          parameters := [], bufferStartIndex := S.pfx.data.length,
          keyBuffer := "", longType := '"', state := State.Name } :=
    step_pfx_to_name rfl hle (by decide)
  have h2 : step S ((S.pfx.data ++ "name ".data) ++ [' '])
      (S.pfx.data.length + 1) 'a'
      { name := "", arguments := [], options := [], parameters := [],
        bufferStartIndex := S.pfx.data.length, keyBuffer := "",
        longType := '"', state := State.Name } =
      Except.ok
        { name := "", arguments := [], options := [],
          parameters := [], bufferStartIndex := S.pfx.data.length,
          keyBuffer := "", longType := '"', state := State.Name } :=
    step_name_other rfl (by decide)
  have h3 : step S ((S.pfx.data ++ "name ".data) ++ [' '])
      (S.pfx.data.length + 1 + 1) 'm'
      { name := "", arguments := [], options := [], parameters := [],
        bufferStartIndex := S.pfx.data.length, keyBuffer := "",
        longType := '"', state := State.Name } =
      Except.ok
        { name := "", arguments := [], options := [],
          parameters := [], bufferStartIndex := S.pfx.data.length,
          keyBuffer := "", longType := '"', state := State.Name } :=
    step_name_other rfl (by decide)
  have h4 : step S ((S.pfx.data ++ "name ".data) ++ [' '])
      (S.pfx.data.length + 1 + 1 + 1) 'e'
      { name := "", arguments := [], options := [], parameters := [],
        bufferStartIndex := S.pfx.data.length, keyBuffer := "",
        longType := '"', state := State.Name } =
      Except.ok
        { name := "", arguments := [], options := [],
          parameters := [], bufferStartIndex := S.pfx.data.length,
          keyBuffer := "", longType := '"', state := State.Name } :=
    step_name_other rfl (by decide)
  have h5 : step S ((S.pfx.data ++ "name ".data) ++ [' '])
      (S.pfx.data.length + 1 + 1 + 1 + 1) ' '
      { name := "", arguments := [], options := [], parameters := [],
        bufferStartIndex := S.pfx.data.length, keyBuffer := "",
        longType := '"', state := State.Name } =
      Except.ok
        { name := listSub ((S.pfx.data ++ "name ".data) ++ [' '])
            S.pfx.data.length (S.pfx.data.length + 1 + 1 + 1 + 1),
          arguments := [], options := [], parameters := [],
          bufferStartIndex := S.pfx.data.length + 1 + 1 + 1 + 1,
          keyBuffer := "", longType := '"', state := State.Default } :=
    step_name_close rfl rfl
  have hso : scanOriginal S (S.pfx ++ "name ") = Except.ok
      { name := "name", arguments := [], options := [], parameters := [],
        bufferStartIndex := S.pfx.data.length + 4, keyBuffer := "",
        longType := '"', state := State.Default } := by
    unfold scanOriginal
    rw [hdata]
    rw [scanLoop_append S ((S.pfx.data ++ "name ".data) ++ [' '])
      S.pfx.data "name ".data 0 initScan]
    rw [hchunk]
    dsimp only
    rw [Nat.zero_add]
    show scanLoop S ((S.pfx.data ++ "name ".data) ++ [' '])
        S.pfx.data.length ('n' :: 'a' :: 'm' :: 'e' :: ' ' :: []) initScan =
      _
    simp only [scanLoop]
    rw [h1]
    dsimp only
    rw [h2]
    dsimp only
    rw [h3]
    dsimp only
    rw [h4]
    dsimp only
    rw [h5]
    dsimp only
    rw [hsub]
  rw [hpe, hso]
  dsimp only
  have h6 : step S ((S.pfx ++ "name ").data ++ [' '])
      (S.pfx ++ "name ").length ' '
      { name := "name", arguments := [], options := [], parameters := [],
        bufferStartIndex := S.pfx.data.length + 4, keyBuffer := "",
        longType := '"', state := State.Default } =
      Except.ok
        { name := "name", arguments := [], options := [], parameters := [],
            bufferStartIndex := S.pfx.data.length + 4, keyBuffer := "",
            longType := '"', state := State.Default } :=
    step_default_space rfl rfl
  rw [h6]
  dsimp only
  rfl

/-- Witness for C9: the standard settings, prefix `!`. -/
theorem claim9_witness :
    parse S1 (S1.pfx ++ "name ") =
      Except.ok { parserSettings := S1, name := "name", arguments := [],
                  options := [], parameters := [],
                  source := S1.pfx ++ "name ", passedChecks := true } :=
  claim9_prefix_name S1 rfl

end TCP
